import Mathlib

/-!
# Job table and foreground/background launches of the custom shell

A shallow embedding of `jobs.cpp` and of the launch logic of `shell.cpp`.

* `int` and `pid_t` values are mathematical integers (`Int`); signed overflow of
  `next_job_id` is undefined behaviour in C++, so defined executions coincide with
  the unbounded model.
* A `Job*` returned by the lookups is the position of the record in the vector
  (`none` for `nullptr`).
* The file-static `jobs` and `next_job_id` are the two fields of `JobTable`.
-/

namespace CustomShell

/-! ## jobs.h / jobs.cpp -/

/-- The record `struct Job` of jobs.h. -/
structure Job where
  id : Int
  pgid : Int
  cmdline : String
  running : Bool
deriving DecidableEq, Repr

/-- The two file-static variables of jobs.cpp. -/
structure JobTable where
  jobs : List Job
  next_job_id : Int
deriving DecidableEq, Repr

/-- The function `init_jobs`: clear the vector, restart the counter at 1. -/
def init_jobs : JobTable := ⟨[], 1⟩

/-- The function `add_job`: the new record takes `next_job_id`, the counter is post-incremented,
the record is pushed at the back and its id is returned. -/
def add_job (t : JobTable) (pgid : Int) (cmdline : String) (running : Bool) : Int × JobTable :=
  let j : Job := ⟨t.next_job_id, pgid, cmdline, running⟩
  (j.id, ⟨t.jobs ++ [j], t.next_job_id + 1⟩)

/-- The function `remove_job_by_pgid`: erase/remove_if drops every record whose pgid matches and
keeps the others in order. -/
def remove_job_by_pgid (t : JobTable) (pgid : Int) : JobTable :=
  ⟨t.jobs.filter (fun j => !decide (j.pgid = pgid)), t.next_job_id⟩

/-- Position of the first record satisfying `p`: the range-for loop with an early
`return &j`. -/
def first_index (p : Job → Bool) : List Job → Option Nat
  | [] => none
  | j :: js => if p j then some 0 else (first_index p js).map (· + 1)

/-- The function `find_job_by_id`: pointer to the first record with that id. -/
def find_job_by_id (t : JobTable) (id : Int) : Option Nat :=
  first_index (fun j => decide (j.id = id)) t.jobs

/-- The function `find_job_by_pgid`: pointer to the first record with that pgid. -/
def find_job_by_pgid (t : JobTable) (pgid : Int) : Option Nat :=
  first_index (fun j => decide (j.pgid = pgid)) t.jobs

/-- The assignment `j->running = v` through a pointer to position `i`. -/
def set_running (v : Bool) : Nat → List Job → List Job
  | _, [] => []
  | 0, j :: js => { j with running := v } :: js
  | i + 1, j :: js => j :: set_running v i js

/-- The function `mark_job_as_stopped`: look the record up by pgid and clear its flag. -/
def mark_job_as_stopped (t : JobTable) (pgid : Int) : JobTable :=
  match find_job_by_pgid t pgid with
  | some i => { t with jobs := set_running false i t.jobs }
  | none => t

/-- The function `mark_job_as_running`: look the record up by pgid and set its flag. -/
def mark_job_as_running (t : JobTable) (pgid : Int) : JobTable :=
  match find_job_by_pgid t pgid with
  | some i => { t with jobs := set_running true i t.jobs }
  | none => t

/-- The call of `mark_job_as_running` (`v = true`) or `mark_job_as_stopped`
(`v = false`) that requests state `v`. -/
def mark_job (v : Bool) (t : JobTable) (pgid : Int) : JobTable :=
  if v then mark_job_as_running t pgid else mark_job_as_stopped t pgid

/-- Ways in which a call does not return to its caller. -/
inductive Abort where
  | exit_shell        -- `exit(0)`
  | child_exec        -- the process is the forked child
  | out_of_bounds     -- `v[i]` with `i >= v.size()`
  | invalid_argument  -- thrown by `std::stoi`
  | out_of_range      -- thrown by `std::stoi`
  | length_error      -- thrown by the `std::vector` constructor
deriving DecidableEq, Repr

/-- The status word filled in by `waitpid(..., WUNTRACED)`. -/
inductive WaitStatus where
  | exited (code : Nat)
  | signaled (sig : Nat)
  | stopped (sig : Nat)
deriving DecidableEq, Repr

/-- The test `WIFSTOPPED` on a status word. -/
def WIFSTOPPED : WaitStatus → Bool
  | WaitStatus.stopped _ => true
  | _ => false

/-- Signals sent by the interpreter. -/
inductive Signal where
  | SIGCONT
deriving DecidableEq, Repr

/-- Answers of the operating system during one `execute_line`. -/
structure Env where
  chdir_ok : Bool
  getcwd_ok : Bool
  /-- Descriptor returned by the `open` for the redirection operator at `args[i]`. -/
  open_fd : Nat → Int
  /-- Whether the `i`-th `pipe` call succeeds. -/
  pipe_ok : Nat → Bool
  /-- Value returned by the `i`-th `fork`. -/
  fork_pid : Nat → Int
  /-- Status reported by the `k`-th `waitpid`. -/
  wait_status : Nat → WaitStatus

/-- State of the interpreter and of the part of the system it acts on. -/
structure Shell where
  table : JobTable
  history_lines : List String
  /-- Value of `getpid()`; `shell_loop` makes it the shell's process group too. -/
  shell_pid : Int
  /-- Foreground process group of the terminal. -/
  tty_pgrp : Int
  /-- Assignments made by `setpgid`, latest first. -/
  pgrp : List (Int × Int)
  /-- Calls of `kill`, oldest first. -/
  signals : List (Int × Signal)
  /-- First arguments of the `waitpid` calls, oldest first. -/
  waited : List Int
  /-- Lines `[id] pgid` written to standard output, oldest first. -/
  echoed : List (Int × Int)
  /-- Lines written to standard error, oldest first. -/
  diagnostics : List String
deriving DecidableEq, Repr

/-- The call `tcsetpgrp(STDIN_FILENO, pg)` made by the shell. -/
def tcsetpgrp (s : Shell) (pg : Int) : Shell := { s with tty_pgrp := pg }

/-- The call `setpgid(pid, pg)` made by the shell. -/
def setpgid (s : Shell) (pid pg : Int) : Shell := { s with pgrp := (pid, pg) :: s.pgrp }

/-- Process group last assigned to `pid`. -/
def getpgid (s : Shell) (pid : Int) : Option Int := s.pgrp.lookup pid

/-- The call `kill(target, sig)`. -/
def kill (s : Shell) (target : Int) (sig : Signal) : Shell :=
  { s with signals := s.signals ++ [(target, sig)] }

/-- The call `waitpid(pid, &status, WUNTRACED)`; the status comes from the `Env`. -/
def waitpid (s : Shell) (pid : Int) : Shell := { s with waited := s.waited ++ [pid] }

/-- A line on standard error (`perror` or `std::cerr`). -/
def report (s : Shell) (msg : String) : Shell :=
  { s with diagnostics := s.diagnostics ++ [msg] }

/-- The classification `isspace` in the C locale: the space and the controls 9 to 13. -/
def isspace (c : Char) : Bool :=
  c.toNat = 32 || (9 ≤ c.toNat && c.toNat ≤ 13)

/-- The function `tokenize` on the characters of the line: `iss >> tok` skips white space and
reads up to the next white space; `cur` is the token being read. -/
def tokenize_chars : List Char → List Char → List String
  | [], cur => if cur.isEmpty then [] else [String.mk cur]
  | c :: cs, cur =>
      if isspace c then
        if cur.isEmpty then tokenize_chars cs [] else String.mk cur :: tokenize_chars cs []
      else tokenize_chars cs (cur ++ [c])

/-- The function `tokenize`: the words of the line, split at white space. -/
def tokenize (line : String) : List String := tokenize_chars line.toList []

/-- The loop of `split_pipeline`: `cmds` and `cur` are the two local vectors. -/
def split_pipeline_loop : List String → List (List String) → List String →
    List (List String) × List String
  | [], cmds, cur => (cmds, cur)
  | t :: ts, cmds, cur =>
      if t = "|" then split_pipeline_loop ts (cmds ++ [cur]) []
      else split_pipeline_loop ts cmds (cur ++ [t])

/-- The function `split_pipeline`: a command is closed at every `|`, the last one only
when it is not empty. -/
def split_pipeline (tokens : List String) : List (List String) :=
  let r := split_pipeline_loop tokens [] []
  if !r.2.isEmpty then r.1 ++ [r.2] else r.1

/-- The function `is_builtin`. -/
def is_builtin (cmd : String) : Bool :=
  ["cd", "exit", "pwd", "jobs", "history", "fg", "bg"].contains cmd

/-- Least value of `int`. -/
def INT_MIN : Int := -2147483648

/-- Greatest value of `int`. -/
def INT_MAX : Int := 2147483647

/-- Value of a run of decimal digits. -/
def digits_value (ds : List Char) : Int :=
  ds.foldl (fun acc d => 10 * acc + ((d.toNat : Int) - 48)) 0

/-- The call `std::stoi(str)`: `strtol` in base 10 skips leading white space, takes an
optional sign and the longest run of digits and ignores what follows; no digit
throws `invalid_argument`, a value outside `int` throws `out_of_range`. -/
def stoi (str : String) : Except Abort Int :=
  let cs := str.toList.dropWhile isspace
  let negative := cs.head? = some '-'
  let body := if cs.head? = some '-' || cs.head? = some '+' then cs.tail else cs
  let ds := body.takeWhile Char.isDigit
  if ds.isEmpty then Except.error Abort.invalid_argument
  else
    let v := if negative then - digits_value ds else digits_value ds
    if v < INT_MIN || INT_MAX < v then Except.error Abort.out_of_range
    else Except.ok v

/-- The function `run_builtin`. -/
def run_builtin (env : Env) (s : Shell) (args : List String) : Except Abort Shell :=
  match args with
  | [] => Except.ok s
  | cmd :: _ =>
    if cmd = "cd" then
      if env.chdir_ok then Except.ok s else Except.ok (report s "cd")
    else if cmd = "exit" then Except.error Abort.exit_shell
    else if cmd = "pwd" then
      if env.getcwd_ok then Except.ok s else Except.ok (report s "pwd")
    else if cmd = "jobs" then Except.ok s
    else if cmd = "history" then Except.ok s
    else if cmd = "fg" then
      if args.length < 2 then Except.ok (report s "fg: job id required")
      else
        match args[1]? with
        | none => Except.error Abort.out_of_bounds
        | some a =>
          match stoi a with
          | Except.error e => Except.error e
          | Except.ok id =>
            match (find_job_by_id s.table id).bind (fun i => s.table.jobs[i]?) with
            | none => Except.ok (report s "fg: no such job")
            | some j =>
              let pgid := j.pgid
              let s := tcsetpgrp s pgid
              let s := kill s (-pgid) Signal.SIGCONT
              let s := { s with table := mark_job_as_running s.table pgid }
              let s := waitpid s (-pgid)
              let status := env.wait_status 0
              let s := tcsetpgrp s s.shell_pid
              if WIFSTOPPED status then
                Except.ok { s with table := mark_job_as_stopped s.table pgid }
              else
                Except.ok { s with table := remove_job_by_pgid s.table pgid }
    else if cmd = "bg" then
      if args.length < 2 then Except.ok (report s "bg: job id required")
      else
        match args[1]? with
        | none => Except.error Abort.out_of_bounds
        | some a =>
          match stoi a with
          | Except.error e => Except.error e
          | Except.ok id =>
            match (find_job_by_id s.table id).bind (fun i => s.table.jobs[i]?) with
            | none => Except.ok (report s "bg: no such job")
            | some j =>
              let pgid := j.pgid
              let s := kill s (-pgid) Signal.SIGCONT
              Except.ok { s with table := mark_job_as_running s.table pgid }
    else Except.ok s

/-- The scan of `handle_redirection_and_exec` over `args` from position `i`:
`none` when an `open` failed, else the descriptors and the words kept for
`argv` (without the closing `nullptr`). -/
def scan_args (env : Env) : Nat → List String → Int → Int → List String →
    Option (Int × Int × List String)
  | _, [], in_fd, out_fd, argv => some (in_fd, out_fd, argv)
  | _, [a], in_fd, out_fd, argv => some (in_fd, out_fd, argv ++ [a])
  | i, a :: f :: rest, in_fd, out_fd, argv =>
      if a = "<" then
        if env.open_fd i < 0 then none else scan_args env (i + 2) rest (env.open_fd i) out_fd argv
      else if a = ">" then
        if env.open_fd i < 0 then none else scan_args env (i + 2) rest in_fd (env.open_fd i) argv
      else if a = ">>" then
        if env.open_fd i < 0 then none else scan_args env (i + 2) rest in_fd (env.open_fd i) argv
      else scan_args env (i + 1) (f :: rest) in_fd out_fd (argv ++ [a])

/-- The function `handle_redirection_and_exec`, in the shell process. -/
def handle_redirection_and_exec (env : Env) (s : Shell) (args : List String)
    (background : Bool) : Except Abort Shell :=
  match scan_args env 0 args (-1) (-1) [] with
  | none => Except.ok (report s "open")
  | some (_, _, argv) =>
    if argv.length + 1 ≤ 1 then Except.ok s
    else
      let pid := env.fork_pid 0
      if pid < 0 then Except.ok (report s "fork")
      else if pid = 0 then Except.error Abort.child_exec
      else
        let s := setpgid s pid pid
        if background then
          match args[0]? with
          | none => Except.error Abort.out_of_bounds
          | some a0 =>
            let r := add_job s.table pid a0 true
            Except.ok { s with table := r.2, echoed := s.echoed ++ [(r.1, pid)] }
        else
          let s := tcsetpgrp s pid
          let s := waitpid s pid
          let status := env.wait_status 0
          let s := tcsetpgrp s s.shell_pid
          if WIFSTOPPED status then
            Except.ok { s with table := mark_job_as_stopped s.table pid }
          else
            Except.ok { s with table := remove_job_by_pgid s.table pid }

/-- Outcome of the fork loop of `run_pipeline`. -/
inductive Forked where
  | failed (s : Shell)                     -- a `fork` failed: `perror`, `return`
  | child                                  -- this process is a child
  | spawned (s : Shell) (pids : List Int)  -- the loop ran to its end
deriving DecidableEq, Repr

/-- The fork loop of `run_pipeline` over the stage numbers still to launch. -/
def fork_children (env : Env) : List Nat → Shell → List Int → Forked
  | [], s, pids => Forked.spawned s pids
  | i :: stages, s, pids =>
      if env.fork_pid i < 0 then Forked.failed (report s "fork")
      else if env.fork_pid i = 0 then Forked.child
      else fork_children env stages (setpgid s (env.fork_pid i) (env.fork_pid i))
             (pids ++ [env.fork_pid i])

/-- The wait loop of `run_pipeline`; `k` counts the `waitpid` calls made. -/
def wait_children (env : Env) (pgid : Int) : List Int → Nat → Shell → Shell
  | [], _, s => s
  | pid :: pids, k, s =>
      let s := tcsetpgrp s pgid
      let s := waitpid s pid
      let s := if WIFSTOPPED (env.wait_status k) then
                 { s with table := mark_job_as_stopped s.table pgid } else s
      wait_children env pgid pids (k + 1) s

/-- The function `run_pipeline`, in the shell process. -/
def run_pipeline (env : Env) (s : Shell) (commands : List (List String))
    (background : Bool) : Except Abort Shell :=
  let n := commands.length
  if n = 0 then Except.error Abort.length_error
  else if !(List.range (n - 1)).all env.pipe_ok then Except.ok (report s "pipe")
  else
    match fork_children env (List.range n) s [] with
    | Forked.failed s => Except.ok s
    | Forked.child => Except.error Abort.child_exec
    | Forked.spawned s pids =>
      let pgid := pids.headD (-1)
      if background && decide (pgid > 0) then
        match commands[0]? with
        | none => Except.error Abort.out_of_bounds
        | some first =>
          match first[0]? with
          | none => Except.error Abort.out_of_bounds
          | some c0 =>
            let r := add_job s.table pgid c0 true
            Except.ok { s with table := r.2, echoed := s.echoed ++ [(r.1, pgid)] }
      else
        let s := wait_children env pgid pids 0 s
        let s := tcsetpgrp s s.shell_pid
        Except.ok { s with table := remove_job_by_pgid s.table pgid }

/-- The function `execute_line`. -/
def execute_line (env : Env) (s : Shell) (line : String) : Except Abort Shell :=
  if line.isEmpty then Except.ok s
  else
    let s := { s with history_lines := s.history_lines ++ [line] }
    let tokens := tokenize line
    if tokens.isEmpty then Except.ok s
    else
      let background := decide (tokens.getLast? = some "&")
      let tokens := if background then tokens.dropLast else tokens
      let piped := split_pipeline tokens
      if piped.length > 1 then run_pipeline env s piped background
      else
        match tokens[0]? with
        | none => Except.error Abort.out_of_bounds
        | some t0 =>
          if is_builtin t0 then run_builtin env s tokens
          else handle_redirection_and_exec env s tokens background

/-! ## Concrete inputs used below -/

/-- The state after the start-up of `shell_loop` for a shell with pid 1. -/
def shell0 : Shell :=
  { table := init_jobs, history_lines := [], shell_pid := 1, tty_pgrp := 1,
    pgrp := [(1, 1)], signals := [], waited := [], echoed := [], diagnostics := [] }

/-- Every call succeeds, the children get pids 100, 101, ..., every process waited
for reports a normal exit. -/
def env_ok : Env :=
  { chdir_ok := true, getcwd_ok := true, open_fd := fun _ => 3, pipe_ok := fun _ => true,
    fork_pid := fun i => 100 + i, wait_status := fun _ => WaitStatus.exited 0 }

/-- As `env_ok`, but every process waited for reports a stop by signal 20. -/
def env_stop : Env :=
  { env_ok with wait_status := fun _ => WaitStatus.stopped 20 }

/-- The table holding a stopped job of group 7 between two other jobs. -/
def table3 : JobTable :=
  ⟨[⟨1, 5, "a", true⟩, ⟨2, 7, "b", false⟩, ⟨4, 9, "c", true⟩], 5⟩

theorem first_index_eq_none {p : Job → Bool} {l : List Job} :
    first_index p l = none ↔ ∀ j ∈ l, p j = false := by
  induction l with
  | nil => simp [first_index]
  | cons a l ih =>
    by_cases h : p a = true
    · simp [first_index, h]
    · simp [first_index, h, ih]

theorem first_index_some {p : Job → Bool} {l : List Job} {i : Nat}
    (h : first_index p l = some i) :
    ∃ j, l[i]? = some j ∧ p j = true ∧ ∀ k, k < i → ∀ j0, l[k]? = some j0 → p j0 = false := by
  induction l generalizing i with
  | nil => simp [first_index] at h
  | cons a l ih =>
    by_cases hp : p a = true
    · simp [first_index, hp] at h
      subst h
      exact ⟨a, by simp, hp, by intro k hk; omega⟩
    · simp [first_index, hp] at h
      obtain ⟨i0, hi0, rfl⟩ := h
      obtain ⟨j, hj, hpj, hlt⟩ := ih hi0
      refine ⟨j, by simpa using hj, hpj, ?_⟩
      intro k hk j0 hj0
      cases k with
      | zero =>
        simp at hj0
        subst hj0
        simpa using hp
      | succ k =>
        simp at hj0
        exact hlt k (by omega) j0 hj0

theorem set_running_length (v : Bool) (i : Nat) (l : List Job) :
    (set_running v i l).length = l.length := by
  induction l generalizing i with
  | nil => simp [set_running]
  | cons a l ih => cases i <;> simp [set_running, ih]

theorem set_running_getElem? (v : Bool) (i k : Nat) (l : List Job) :
    (set_running v i l)[k]? =
      if k = i then (l[k]?).map (fun j => { j with running := v }) else l[k]? := by
  induction l generalizing i k with
  | nil => simp [set_running]
  | cons a l ih =>
    cases i with
    | zero => cases k <;> simp [set_running]
    | succ i => cases k <;> simp [set_running, ih]

theorem set_running_map_id (v : Bool) (i : Nat) (l : List Job) :
    (set_running v i l).map Job.id = l.map Job.id := by
  induction l generalizing i with
  | nil => simp [set_running]
  | cons a l ih => cases i <;> simp [set_running, ih]

theorem set_running_map_pgid (v : Bool) (i : Nat) (l : List Job) :
    (set_running v i l).map Job.pgid = l.map Job.pgid := by
  induction l generalizing i with
  | nil => simp [set_running]
  | cons a l ih => cases i <;> simp [set_running, ih]

theorem set_running_map_cmdline (v : Bool) (i : Nat) (l : List Job) :
    (set_running v i l).map Job.cmdline = l.map Job.cmdline := by
  induction l generalizing i with
  | nil => simp [set_running]
  | cons a l ih => cases i <;> simp [set_running, ih]

theorem set_running_idem (v : Bool) (i : Nat) (l : List Job) :
    set_running v i (set_running v i l) = set_running v i l := by
  induction l generalizing i with
  | nil => simp [set_running]
  | cons a l ih => cases i <;> simp [set_running, ih]

/-- A lookup by pgid does not see the `running` flag. -/
theorem first_index_pgid_set_running (g : Int) (v : Bool) (i : Nat) (l : List Job) :
    first_index (fun j => decide (j.pgid = g)) (set_running v i l) =
      first_index (fun j => decide (j.pgid = g)) l := by
  induction l generalizing i with
  | nil => simp [set_running]
  | cons a l ih => cases i <;> simp [set_running, first_index, ih]

/-- A lookup by id does not see the `running` flag. -/
theorem first_index_id_set_running (n : Int) (v : Bool) (i : Nat) (l : List Job) :
    first_index (fun j => decide (j.id = n)) (set_running v i l) =
      first_index (fun j => decide (j.id = n)) l := by
  induction l generalizing i with
  | nil => simp [set_running]
  | cons a l ih => cases i <;> simp [set_running, first_index, ih]

theorem mark_job_eq (v : Bool) (t : JobTable) (g : Int) :
    mark_job v t g =
      match find_job_by_pgid t g with
      | some i => { t with jobs := set_running v i t.jobs }
      | none => t := by
  cases v <;> simp [mark_job, mark_job_as_running, mark_job_as_stopped]

theorem find_job_by_pgid_mark_job (v : Bool) (t : JobTable) (g h : Int) :
    find_job_by_pgid (mark_job v t g) h = find_job_by_pgid t h := by
  rw [mark_job_eq]
  split
  · simp [find_job_by_pgid, first_index_pgid_set_running]
  · rfl

/-- C7: `remove_job_by_pgid g` keeps exactly the records whose pgid is not `g`,
unchanged and in their order; afterwards the lookup by pgid `g` fails, a table
without a record of group `g` is left as it was, and the id counter is the same. -/
theorem remove_job_by_pgid_keeps_the_others (t : JobTable) (g : Int) :
    (remove_job_by_pgid t g).jobs.Sublist t.jobs ∧
    (∀ j, j ∈ (remove_job_by_pgid t g).jobs ↔ j ∈ t.jobs ∧ j.pgid ≠ g) ∧
    (∀ j, j.pgid ≠ g → (remove_job_by_pgid t g).jobs.count j = t.jobs.count j) ∧
    find_job_by_pgid (remove_job_by_pgid t g) g = none ∧
    ((∀ j ∈ t.jobs, j.pgid ≠ g) → remove_job_by_pgid t g = t) ∧
    (remove_job_by_pgid t g).next_job_id = t.next_job_id := by
  refine ⟨List.filter_sublist _, ?_, ?_, ?_, ?_, rfl⟩
  · intro j
    simp [remove_job_by_pgid]
  · intro j hj
    simp only [remove_job_by_pgid]
    rw [List.count_filter]
    simpa using hj
  · rw [find_job_by_pgid, first_index_eq_none]
    intro j hj
    simp [remove_job_by_pgid] at hj
    simpa using hj.2
  · intro h
    cases t with
    | mk jobs next =>
      simp only [remove_job_by_pgid, JobTable.mk.injEq, and_true]
      rw [List.filter_eq_self]
      intro j hj
      simpa using h j hj

/-- C8: `mark_job_as_stopped` and `mark_job_as_running` are idempotent, leave a
table without a record of group `g` as it was, and otherwise keep length, order,
ids, pgids, command texts, the counter and every record except the one the
lookup by pgid `g` finds; that record keeps its place and has the requested
state afterwards. -/
theorem mark_job_sets_only_the_state (v : Bool) (t : JobTable) (g : Int) :
    mark_job v (mark_job v t g) g = mark_job v t g ∧
    (find_job_by_pgid t g = none → mark_job v t g = t) ∧
    (mark_job v t g).jobs.length = t.jobs.length ∧
    (mark_job v t g).jobs.map Job.id = t.jobs.map Job.id ∧
    (mark_job v t g).jobs.map Job.pgid = t.jobs.map Job.pgid ∧
    (mark_job v t g).jobs.map Job.cmdline = t.jobs.map Job.cmdline ∧
    (mark_job v t g).next_job_id = t.next_job_id ∧
    (∀ k, find_job_by_pgid t g ≠ some k → (mark_job v t g).jobs[k]? = t.jobs[k]?) ∧
    find_job_by_pgid (mark_job v t g) g = find_job_by_pgid t g ∧
    (∀ i, find_job_by_pgid t g = some i →
      ∃ j, (mark_job v t g).jobs[i]? = some j ∧ j.pgid = g ∧ j.running = v) := by
  refine ⟨?_, ?_, ?_, ?_, ?_, ?_, ?_, ?_, find_job_by_pgid_mark_job v t g g, ?_⟩
  · rw [mark_job_eq v (mark_job v t g) g, find_job_by_pgid_mark_job, mark_job_eq]
    cases h : find_job_by_pgid t g with
    | none => rfl
    | some i => simp [set_running_idem]
  · intro h
    rw [mark_job_eq, h]
  · rw [mark_job_eq]
    split <;> simp [set_running_length]
  · rw [mark_job_eq]
    split <;> simp [set_running_map_id]
  · rw [mark_job_eq]
    split <;> simp [set_running_map_pgid]
  · rw [mark_job_eq]
    split <;> simp [set_running_map_cmdline]
  · rw [mark_job_eq]
    split <;> rfl
  · intro k hk
    rw [mark_job_eq]
    cases h : find_job_by_pgid t g with
    | none => rfl
    | some i =>
      have : k ≠ i := by
        intro hki
        exact hk (by rw [h, hki])
      simp [set_running_getElem?, this]
  · intro i hi
    obtain ⟨j, hj, hp, _⟩ := first_index_some hi
    refine ⟨{ j with running := v }, ?_, by simpa using hp, rfl⟩
    rw [mark_job_eq, hi]
    simp [set_running_getElem?, hj]

/-- Removing group 6, which has no record, and group 7 from `table3`. -/
theorem remove_job_by_pgid_keeps_the_others_witness :
    remove_job_by_pgid table3 6 = table3 ∧
    (remove_job_by_pgid table3 7).jobs = [⟨1, 5, "a", true⟩, ⟨4, 9, "c", true⟩] :=
  ⟨(remove_job_by_pgid_keeps_the_others table3 6).2.2.2.2.1 (by decide), by decide⟩

/-- Marking group 6, which has no record, and group 7 of `table3` as running. -/
theorem mark_job_sets_only_the_state_witness :
    mark_job true table3 6 = table3 ∧
    (mark_job true table3 7).jobs = [⟨1, 5, "a", true⟩, ⟨2, 7, "b", true⟩, ⟨4, 9, "c", true⟩] :=
  ⟨(mark_job_sets_only_the_state true table3 6).2.1 (by decide), by decide⟩

/-! ## Lemmas on the launches -/

/-- When every fork of the loop returns a child pid, the loop runs to its end:
each child has been put in the group named by its own pid. -/
theorem fork_children_all_spawned (env : Env) (stages : List Nat) :
    ∀ (s : Shell) (pids : List Int), (∀ i ∈ stages, 0 < env.fork_pid i) →
      fork_children env stages s pids =
        Forked.spawned
          { s with pgrp := (stages.map (fun i => (env.fork_pid i, env.fork_pid i))).reverse ++ s.pgrp }
          (pids ++ stages.map env.fork_pid) := by
  induction stages with
  | nil => intro s pids _; simp [fork_children]
  | cons i stages ih =>
    intro s pids h
    have hi : 0 < env.fork_pid i := h i (by simp)
    have h1 : ¬ env.fork_pid i < 0 := by omega
    have h2 : ¬ env.fork_pid i = 0 := by omega
    rw [fork_children, if_neg h1, if_neg h2, ih _ _ (fun k hk => h k (by simp [hk]))]
    simp [setpgid]

/-- The wait loop keeps the shell's pid, the process groups and the id counter. -/
theorem wait_children_frame (env : Env) (pgid : Int) (pids : List Int) :
    ∀ (k : Nat) (s : Shell),
      (wait_children env pgid pids k s).shell_pid = s.shell_pid ∧
      (wait_children env pgid pids k s).pgrp = s.pgrp ∧
      (wait_children env pgid pids k s).waited = s.waited ++ pids := by
  induction pids with
  | nil => intro k s; simp [wait_children]
  | cons pid pids ih =>
    intro k s
    rw [wait_children]
    obtain ⟨h1, h2, h3⟩ := ih (k + 1)
      (if WIFSTOPPED (env.wait_status k) then
        { waitpid (tcsetpgrp s pgid) pid with
          table := mark_job_as_stopped (waitpid (tcsetpgrp s pgid) pid).table pgid }
       else waitpid (tcsetpgrp s pgid) pid)
    refine ⟨?_, ?_, ?_⟩
    · rw [h1]; split <;> simp [waitpid, tcsetpgrp]
    · rw [h2]; split <;> simp [waitpid, tcsetpgrp]
    · rw [h3]; split <;> simp [waitpid, tcsetpgrp]

theorem lookup_own_group (l : List Int) (r : List (Int × Int)) (k : Int) (hk : k ∈ l) :
    (l.map (fun p => (p, p)) ++ r).lookup k = some k := by
  induction l with
  | nil => simp at hk
  | cons a l ih =>
    by_cases h : k = a
    · subst h
      simp [List.lookup]
    · have hk2 : k ∈ l := by
        simpa [h] using hk
      have hne : (k == a) = false := by
        simpa using h
      simp [List.lookup, hne]
      simpa using ih hk2

theorem all_pipes_ok {env : Env} {n : Nat} (h : ∀ i, i + 1 < n → env.pipe_ok i = true) :
    (List.range (n - 1)).all env.pipe_ok = true := by
  rw [List.all_eq_true]
  intro i hi
  rw [List.mem_range] at hi
  exact h i (by omega)

theorem headD_map_range (f : Nat → Int) (n : Nat) (d : Int) :
    ((List.range (n + 1)).map f).headD d = f 0 := by
  rw [List.range_succ_eq_map]
  rfl

/-- The state in which a pipeline whose forks all succeed leaves the fork loop. -/
theorem run_pipeline_after_forks (env : Env) (s : Shell) (commands : List (List String))
    (background : Bool) (hn : commands ≠ [])
    (hpipe : ∀ i, i + 1 < commands.length → env.pipe_ok i = true)
    (hfork : ∀ i, i < commands.length → 0 < env.fork_pid i) :
    run_pipeline env s commands background =
      (if (background && decide (env.fork_pid 0 > 0)) = true then
        match commands[0]? with
        | none => Except.error Abort.out_of_bounds
        | some first =>
          match first[0]? with
          | none => Except.error Abort.out_of_bounds
          | some c0 =>
            Except.ok
              { s with
                pgrp := ((List.range commands.length).map
                  (fun i => (env.fork_pid i, env.fork_pid i))).reverse ++ s.pgrp,
                table := (add_job s.table (env.fork_pid 0) c0 true).2,
                echoed := s.echoed ++ [((add_job s.table (env.fork_pid 0) c0 true).1, env.fork_pid 0)] }
      else
        Except.ok
          { tcsetpgrp
              (wait_children env (env.fork_pid 0) ((List.range commands.length).map env.fork_pid) 0
                { s with pgrp := ((List.range commands.length).map
                    (fun i => (env.fork_pid i, env.fork_pid i))).reverse ++ s.pgrp })
              s.shell_pid with
            table := remove_job_by_pgid
              (wait_children env (env.fork_pid 0) ((List.range commands.length).map env.fork_pid) 0
                { s with pgrp := ((List.range commands.length).map
                    (fun i => (env.fork_pid i, env.fork_pid i))).reverse ++ s.pgrp }).table
              (env.fork_pid 0) }) := by
  have hlen : commands.length ≠ 0 := by
    simpa using hn
  obtain ⟨m, hm⟩ := Nat.exists_eq_succ_of_ne_zero hlen
  have hforks := fork_children_all_spawned env (List.range commands.length) s []
    (fun i hi => hfork i (List.mem_range.mp hi))
  have hhead : ((List.range commands.length).map env.fork_pid).headD (-1) = env.fork_pid 0 := by
    rw [hm]
    exact headD_map_range env.fork_pid m (-1)
  have hw := (wait_children_frame env (env.fork_pid 0)
    ((List.range commands.length).map env.fork_pid) 0
    { s with pgrp := ((List.range commands.length).map
        (fun i => (env.fork_pid i, env.fork_pid i))).reverse ++ s.pgrp }).1
  unfold run_pipeline
  simp only [hlen, if_false, all_pipes_ok hpipe, Bool.not_true, Bool.false_eq_true, hforks,
    List.nil_append, hhead]
  split
  · rfl
  · simp only [tcsetpgrp, hw]

/-- C3, as the code has it: in a pipeline of at least two commands whose pipes
and forks all succeed, `run_pipeline` returns and every launched process has been
made the leader of a group of its own, its group id being its own pid. -/
theorem pipeline_stages_lead_their_own_groups (env : Env) (s : Shell)
    (commands : List (List String)) (background : Bool)
    (hn : 2 ≤ commands.length) (hword : ∀ cmd ∈ commands, cmd ≠ [])
    (hpipe : ∀ i, i + 1 < commands.length → env.pipe_ok i = true)
    (hfork : ∀ i, i < commands.length → 0 < env.fork_pid i) :
    ∃ s1, run_pipeline env s commands background = Except.ok s1 ∧
      ∀ i, i < commands.length → getpgid s1 (env.fork_pid i) = some (env.fork_pid i) := by
  have hne : commands ≠ [] := by
    intro h
    simp [h] at hn
  have hgroups : ∀ i, i < commands.length →
      (((List.range commands.length).map (fun i => (env.fork_pid i, env.fork_pid i))).reverse
        ++ s.pgrp).lookup (env.fork_pid i) = some (env.fork_pid i) := by
    intro i hi
    have hmem : env.fork_pid i ∈ ((List.range commands.length).map env.fork_pid).reverse := by
      simp only [List.mem_reverse, List.mem_map, List.mem_range]
      exact ⟨i, hi, rfl⟩
    have := lookup_own_group _ s.pgrp _ hmem
    simpa [List.map_reverse, Function.comp] using this
  rw [run_pipeline_after_forks env s commands background hne hpipe hfork]
  split
  · cases commands with
    | nil => exact absurd rfl hne
    | cons first rest =>
      cases first with
      | nil => exact absurd rfl (hword [] (by simp))
      | cons c0 words =>
        simp only [List.getElem?_cons_zero]
        refine ⟨_, rfl, ?_⟩
        intro i hi
        exact hgroups i hi
  · refine ⟨_, rfl, ?_⟩
    intro i hi
    have hw := (wait_children_frame env (env.fork_pid 0)
      ((List.range commands.length).map env.fork_pid) 0
      { s with pgrp := ((List.range commands.length).map
          (fun i => (env.fork_pid i, env.fork_pid i))).reverse ++ s.pgrp }).2.1
    simp only [getpgid, tcsetpgrp, hw]
    exact hgroups i hi

/-- The foreground pipeline `ls | wc` with children 100 and 101. -/
theorem pipeline_stages_lead_their_own_groups_witness :
    ∃ s1, run_pipeline env_ok shell0 [["ls"], ["wc"]] false = Except.ok s1 ∧
      ∀ i, i < 2 → getpgid s1 (env_ok.fork_pid i) = some (env_ok.fork_pid i) :=
  pipeline_stages_lead_their_own_groups env_ok shell0 [["ls"], ["wc"]] false (by decide)
    (by decide) (by intro i _; rfl) (by intro i _; simp [env_ok]; omega)

/-- C3 fails as stated: in the foreground pipeline `ls | wc` with children 100
and 101, the second process is in group 101, not in the first child's group 100. -/
theorem pipeline_second_stage_not_in_first_group :
    ((run_pipeline env_ok shell0 [["ls"], ["wc"]] false).toOption.bind
      (fun s1 => getpgid s1 (env_ok.fork_pid 1))) = some 101 ∧
    ((run_pipeline env_ok shell0 [["ls"], ["wc"]] false).toOption.bind
      (fun s1 => getpgid s1 (env_ok.fork_pid 1))) ≠ some (env_ok.fork_pid 0) := by
  decide

/-- C4 fails on the code: a foreground command, and a foreground pipeline, whose
processes report `stopped` start from the empty table and leave it empty; the
lookup by the job's group (the first child's pid, 100) finds nothing. -/
theorem stopped_foreground_job_is_not_recorded :
    (handle_redirection_and_exec env_stop shell0 ["sleep", "9"] false).toOption.map
      (fun s1 => (s1.waited, find_job_by_pgid s1.table 100, s1.table.jobs)) =
      some ([100], none, []) ∧
    (run_pipeline env_stop shell0 [["sleep", "9"], ["cat"]] false).toOption.map
      (fun s1 => (s1.waited, find_job_by_pgid s1.table 100, s1.table.jobs)) =
      some ([100, 101], none, []) := by
  decide

/-- C9 fails on the code: for `fg` and `bg` with a job-id argument that is not a
number, or is too large for `int`, `std::stoi` throws and `run_builtin` does not
return. -/
theorem fg_bg_raise_on_bad_job_id (env : Env) (s : Shell) :
    run_builtin env s ["fg", "abc"] = Except.error Abort.invalid_argument ∧
    run_builtin env s ["bg", "abc"] = Except.error Abort.invalid_argument ∧
    run_builtin env s ["fg", "99999999999"] = Except.error Abort.out_of_range ∧
    run_builtin env s ["bg", "99999999999"] = Except.error Abort.out_of_range :=
  ⟨rfl, rfl, rfl, rfl⟩

/-- C10 fails on the code: for the line `&` the token list is empty after the
`&` is popped and `tokens[0]` is read all the same; for `| a &` the first command
handed to `run_pipeline` is empty and `commands[0][0]` is read. -/
theorem execute_line_reads_out_of_bounds (env : Env) (s : Shell) :
    execute_line env s "&" = Except.error Abort.out_of_bounds ∧
    split_pipeline (tokenize "| a") = [[], ["a"]] ∧
    execute_line env_ok s "| a &" = Except.error Abort.out_of_bounds :=
  ⟨rfl, rfl, rfl⟩

/-- Misuse of `fg` and `bg` that the code handles: without a job id, or with an
id that `std::stoi` reads and that names no record, `run_builtin` returns and
only writes one line on standard error; the job table, the signals sent, the
processes waited for and the terminal's foreground group stay as they were. -/
theorem fg_bg_misuse_only_reports (env : Env) (s : Shell) (cmd : String) (rest : List String)
    (hcmd : cmd = "fg" ∨ cmd = "bg")
    (hbad : rest = [] ∨ ∃ a more id, rest = a :: more ∧ stoi a = Except.ok id ∧
      find_job_by_id s.table id = none) :
    ∃ msg, run_builtin env s (cmd :: rest) = Except.ok (report s msg) := by
  rcases hcmd with rfl | rfl
  · rcases hbad with rfl | ⟨a, more, id, rfl, hid, hfind⟩
    · exact ⟨"fg: job id required", by simp [run_builtin]⟩
    · exact ⟨"fg: no such job", by simp [run_builtin, hid, hfind]⟩
  · rcases hbad with rfl | ⟨a, more, id, rfl, hid, hfind⟩
    · exact ⟨"bg: job id required", by simp [run_builtin]⟩
    · exact ⟨"bg: no such job", by simp [run_builtin, hid, hfind]⟩

end CustomShell
